import Mathlib

/-!
Verification of the channel-scoped publish/subscribe registry implemented in
`src/services/channelManager.js`.

The module keeps three cross-referenced indexes, all module-level JS `Map`s:
  * `channels       : Map channel → Set res`   (SSE response handles),
  * `clientMap      : Map res → { clientId, channel, ip }`,
  * `ipConnections  : Map ip → Set { res, channel }`.

We embed them as association lists with JS `Map` semantics (insertion order,
first-match lookup, in-place update) and JS `Set` semantics (insertion order,
no duplicates for handle sets; the `ipConnections` sets hold freshly allocated
objects, so insertion there is a plain append).  Connection handles (`res`
objects) are identified by natural numbers.  External collaborators are
parameters: `rewriteImageUrls` (the content transformer), `toISO`
(`Date.prototype.toISOString`), and environments recording which connection
handles fail to `write` (`BEnv.fails`), are already `destroyed`, or throw on
`destroy` (`SEnv`).  Calls that can throw in JS (`res.write`, `res.destroy`)
are modelled as `Except`-valued helpers, and the registry operations are
`Except`-valued so that the placement of the source's `try`/`catch` blocks is
visible: a missing catch would surface as an `Except.error` result.
-/

abbrev Res := Nat

abbrev View := String

/-- Entry of `clientMap`: the object `{ clientId, channel, ip }` built at
subscribe time (line 82 of the source). -/
structure ClientInfo where
  clientId : String
  channel : String
  ip : String
deriving Repr, DecidableEq

/-- Entry of an `ipConnections` set: the object `{ res, channel }` built at
subscribe time (line 88 of the source). -/
structure ConnInfo where
  res : Res
  channel : String
deriving Repr, DecidableEq

/-- A message published to a channel: its `type` tag, its optional `view`
payload (absent/falsy modelled as `none`) and its remaining fields, opaque to
the registry, collapsed into `body`. -/
structure Message where
  type : String
  view : Option View
  body : String
deriving Repr, DecidableEq

/-- The three module-level maps of `channelManager.js` (lines 4-6). -/
structure RegistryState where
  channels : List (String × List Res)
  clientMap : List (Res × ClientInfo)
  ipConnections : List (String × List ConnInfo)
deriving Repr, DecidableEq

/-- Environment for `subscribeClient`: which handles are already `destroyed`,
and which throw when `destroy()` is called. -/
structure SEnv where
  destroyed : Res → Bool
  closeFails : Res → Bool

/-- Environment for a single broadcast: which handles' `write` throws. -/
structure BEnv where
  fails : Res → Bool

/-- One `res.write(...)` attempt made during a broadcast: the handle, the
message written, and whether the write succeeded. -/
structure WriteAttempt where
  res : Res
  msg : Message
  ok : Bool
deriving Repr, DecidableEq

/-- JS `Map.get`: first-match lookup in insertion order. -/
def mapGet {α β : Type} [DecidableEq α] : List (α × β) → α → Option β
  | [], _ => none
  | p :: rest, k => if p.1 = k then some p.2 else mapGet rest k

/-- JS `Map.has`. -/
def mapHas {α β : Type} [DecidableEq α] (m : List (α × β)) (k : α) : Bool :=
  (mapGet m k).isSome

/-- JS `Map.set`: update in place if the key is present, else append. -/
def mapSet {α β : Type} [DecidableEq α] : List (α × β) → α → β → List (α × β)
  | [], k, v => [(k, v)]
  | p :: rest, k, v => if p.1 = k then (k, v) :: rest else p :: mapSet rest k v

/-- JS `Map.delete`. -/
def mapDelete {α β : Type} [DecidableEq α] : List (α × β) → α → List (α × β)
  | [], _ => []
  | p :: rest, k => if p.1 = k then mapDelete rest k else p :: mapDelete rest k

/-- JS `Set.add` on a set of handles (identity = value for our handle ids). -/
def setAdd {α : Type} [DecidableEq α] (s : List α) (x : α) : List α :=
  if x ∈ s then s else s ++ [x]

/-- JS `Set.delete`. -/
def setDelete {α : Type} [DecidableEq α] : List α → α → List α
  | [], _ => []
  | y :: rest, x => if y = x then setDelete rest x else y :: setDelete rest x

/-- The unsubscribe scan over an `ipConnections` set (source lines 112-117):
`for (const connInfo of ipConns) if (connInfo.res === res) { delete; break }` —
removes the first entry whose `res` matches. -/
def removeFirstRes : List ConnInfo → Res → List ConnInfo
  | [], _ => []
  | ci :: rest, r => if ci.res = r then rest else ci :: removeFirstRes rest r

/-- `channels.get(c)?.delete(r)` / the guarded delete of the eviction loop
(source lines 41 and 68-71): remove `r` from channel `c`'s set when the
channel entry exists; the emptied entry is NOT deleted on this path. -/
def chanDel (ch : List (String × List Res)) (c : String) (r : Res) :
    List (String × List Res) :=
  match mapGet ch c with
  | some set => mapSet ch c (setDelete set r)
  | none => ch

/-- `res.write(...)` (source line 25): throws when the environment says this
handle's write fails. -/
def writeJS (env : BEnv) (res : Res) : Except String Unit :=
  if env.fails res then Except.error "write failed" else Except.ok ()

/-- `connInfo.res.destroy()` (source line 62): throws when the environment
says closing this handle fails. -/
def destroyJS (env : SEnv) (res : Res) : Except String Unit :=
  if env.closeFails res then Except.error "destroy failed" else Except.ok ()

/-- The message-processing step of `broadcastToChannel` (source lines 11-20):
messages of type `initial_view` or `view_change` that carry a truthy `view`
field are broadcast as a fresh copy whose `view` was passed through
`rewriteImageUrls`; everything else is broadcast verbatim. -/
def processMessage (rewriteImageUrls : View → View) (message : Message) : Message :=
  if message.type = "initial_view" ∨ message.type = "view_change" then
    match message.view with
    | some v => Message.mk message.type (some (rewriteImageUrls v)) message.body
    | none => message
  else message

/-- The `clients.forEach` body of `broadcastToChannel` (source lines 22-44).
Each iteration tries `res.write`; the `catch` block removes the handle from
the channel's set (`channels.get(channel)?.delete(res)`) and from `clientMap`
(the `clientMap.get(res)` reads in both branches feed logging only).  The JS
`Set.forEach` iterates the live set, but the only mutation is deletion of the
current element, so the iteration is the snapshot taken at the start. -/
def bcastLoopE (env : BEnv) (channel : String) (processedMessage : Message) :
    List Res → RegistryState → List WriteAttempt →
    Except String (RegistryState × List WriteAttempt)
  | [], s, acc => Except.ok (s, acc)
  | res :: rest, s, acc =>
    match writeJS env res with
    | Except.ok _ =>
      bcastLoopE env channel processedMessage rest s
        (acc ++ [WriteAttempt.mk res processedMessage true])
    | Except.error _ =>
      bcastLoopE env channel processedMessage rest
        (RegistryState.mk (chanDel s.channels channel res)
          (mapDelete s.clientMap res) s.ipConnections)
        (acc ++ [WriteAttempt.mk res processedMessage false])

/-- `broadcastToChannel(channel, message)` (source lines 8-46), returning the
new registry state together with the list of write attempts made. -/
def broadcastToChannel (env : BEnv) (rewriteImageUrls : View → View)
    (s : RegistryState) (channel : String) (message : Message) :
    Except String (RegistryState × List WriteAttempt) :=
  match mapGet s.channels channel with
  | none => Except.ok (s, [])
  | some clients =>
    bcastLoopE env channel (processMessage rewriteImageUrls message) clients s []

/-- The eviction loop of `subscribeClient` (source lines 59-73): for each
`{ res, channel }` recorded for the subscribing IP, try to `destroy()` the
handle unless it is already destroyed (a throw is swallowed by the empty
`catch`), then delete the handle from its recorded channel's set and from
`clientMap`.  Returns the updated channel/client maps and the handles on
which `destroy()` was actually called. -/
def evictLoopE (env : SEnv) :
    List ConnInfo → List (String × List Res) → List (Res × ClientInfo) →
    List Res →
    Except String (List (String × List Res) × List (Res × ClientInfo) × List Res)
  | [], ch, cm, calls => Except.ok (ch, cm, calls)
  | ci :: rest, ch, cm, calls =>
    let calls1 := if env.destroyed ci.res then calls else calls ++ [ci.res]
    let attempt := if env.destroyed ci.res then Except.ok () else destroyJS env ci.res
    match attempt with
    | Except.ok _ =>
      evictLoopE env rest (chanDel ch ci.channel ci.res) (mapDelete cm ci.res) calls1
    | Except.error _ =>
      evictLoopE env rest (chanDel ch ci.channel ci.res) (mapDelete cm ci.res) calls1

/-- The registration phase of `subscribeClient` (source lines 77-88): ensure
the channel entry exists, add the handle to it, record its metadata, and add
a fresh `{ res, channel }` object to the IP's binding set (a fresh object is
never already a member, so this add is an append). -/
def insertPhase (s : RegistryState) (channel : String) (res : Res)
    (clientId ip : String) : RegistryState :=
  let ch1 := if mapHas s.channels channel then s.channels else mapSet s.channels channel []
  let ch2 := mapSet ch1 channel (setAdd ((mapGet ch1 channel).getD []) res)
  let cm1 := mapSet s.clientMap res (ClientInfo.mk clientId channel ip)
  let ipc1 :=
    if mapHas s.ipConnections ip then s.ipConnections else mapSet s.ipConnections ip []
  let ipc2 := mapSet ipc1 ip (((mapGet ipc1 ip).getD []) ++ [ConnInfo.mk res channel])
  RegistryState.mk ch2 cm1 ipc2

/-- `subscribeClient(channel, res, clientId, ip)` (source lines 49-99): evict
every existing connection from the same IP (dropping the IP's whole binding
entry), then register the new subscriber.  Returns the new state and the
handles that received a `destroy()` call.  The `res.on('close', ...)`
registration (lines 96-98) is an external effect: the transport later calls
`unsubscribeClient(channel, res)` for it. -/
def subscribeClient (env : SEnv) (s : RegistryState) (channel : String)
    (res : Res) (clientId ip : String) :
    Except String (RegistryState × List Res) := do
  let pre ←
    if mapHas s.ipConnections ip then do
      let existingConnections := (mapGet s.ipConnections ip).getD []
      let out ← evictLoopE env existingConnections s.channels s.clientMap []
      pure (RegistryState.mk out.1 out.2.1 (mapDelete s.ipConnections ip), out.2.2)
    else
      pure (s, ([] : List Res))
  pure (insertPhase pre.1 channel res clientId ip, pre.2)

/-- `unsubscribeClient(channel, res)` (source lines 101-138).  No-op when the
channel entry is absent; otherwise deletes the handle from the channel's set,
removes the first matching `{ res, channel }` object from the IP binding of
the handle's recorded ip (dropping the binding entry if it becomes empty, and
skipped entirely when the metadata record is absent or its `ip` is falsy),
deletes the metadata record, and finally deletes the channel entry if its set
became empty. -/
def unsubscribeClient (s : RegistryState) (channel : String) (res : Res) :
    Except String RegistryState :=
  let clientInfo? := mapGet s.clientMap res
  match mapGet s.channels channel with
  | none => Except.ok s
  | some clients =>
    let clients1 := setDelete clients res
    let ipc1 :=
      match clientInfo? with
      | some info =>
        if info.ip = "" then s.ipConnections
        else
          match mapGet s.ipConnections info.ip with
          | some ipConns =>
            let ipConns1 := removeFirstRes ipConns res
            let m1 := mapSet s.ipConnections info.ip ipConns1
            if ipConns1 = [] then mapDelete m1 info.ip else m1
          | none => s.ipConnections
      | none => s.ipConnections
    let cm1 := mapDelete s.clientMap res
    let ch1 := mapSet s.channels channel clients1
    let ch2 := if clients1 = [] then mapDelete ch1 channel else ch1
    Except.ok (RegistryState.mk ch2 cm1 ipc1)

/-- Pure projection of `subscribeClient` (which, as proven below, never
returns an error). -/
def subscribeClientRun (env : SEnv) (s : RegistryState) (channel : String)
    (res : Res) (clientId ip : String) : RegistryState × List Res :=
  match subscribeClient env s channel res clientId ip with
  | Except.ok out => out
  | Except.error _ => (s, [])

/-- Pure projection of `unsubscribeClient`. -/
def unsubscribeClientRun (s : RegistryState) (channel : String) (res : Res) :
    RegistryState :=
  match unsubscribeClient s channel res with
  | Except.ok s1 => s1
  | Except.error _ => s

/-- Pure projection of `broadcastToChannel`. -/
def broadcastToChannelRun (env : BEnv) (rewriteImageUrls : View → View)
    (s : RegistryState) (channel : String) (message : Message) :
    RegistryState × List WriteAttempt :=
  match broadcastToChannel env rewriteImageUrls s channel message with
  | Except.ok out => out
  | Except.error _ => (s, [])

/-- Pure form of the eviction loop, proven equal to `evictLoopE` below. -/
def evictLoopP (env : SEnv) :
    List ConnInfo → List (String × List Res) → List (Res × ClientInfo) →
    List Res → List (String × List Res) × List (Res × ClientInfo) × List Res
  | [], ch, cm, calls => (ch, cm, calls)
  | ci :: rest, ch, cm, calls =>
    evictLoopP env rest (chanDel ch ci.channel ci.res) (mapDelete cm ci.res)
      (if env.destroyed ci.res then calls else calls ++ [ci.res])

/-- Pure form of the broadcast loop, proven equal to `bcastLoopE` below. -/
def bcastLoopP (env : BEnv) (channel : String) (pm : Message) :
    List Res → RegistryState → List WriteAttempt →
    RegistryState × List WriteAttempt
  | [], s, acc => (s, acc)
  | res :: rest, s, acc =>
    if env.fails res then
      bcastLoopP env channel pm rest
        (RegistryState.mk (chanDel s.channels channel res)
          (mapDelete s.clientMap res) s.ipConnections)
        (acc ++ [WriteAttempt.mk res pm false])
    else bcastLoopP env channel pm rest s (acc ++ [WriteAttempt.mk res pm true])

/-- Pure form of the eviction phase of `subscribeClient` (lines 50-75). -/
def evictPhase (env : SEnv) (s : RegistryState) (ip : String) :
    RegistryState × List Res :=
  if mapHas s.ipConnections ip then
    let out := evictLoopP env ((mapGet s.ipConnections ip).getD []) s.channels s.clientMap []
    (RegistryState.mk out.1 out.2.1 (mapDelete s.ipConnections ip), out.2.2)
  else (s, [])

/-- The trailing `-`-delimited segment of a string: what
`clientId.split('-')` followed by `parts[parts.length - 1]` selects (the
split of any string is a non-empty array, so the `parts.length > 0` guard of
the source always holds). -/
def lastSegmentAux : List Char → List Char → List Char
  | [], cur => cur
  | c :: rest, cur =>
    if c = '-' then lastSegmentAux rest [] else lastSegmentAux rest (cur ++ [c])

def lastSegment (s : String) : List Char := lastSegmentAux s.data []

def digitVal (c : Char) : Nat := c.toNat - '0'.toNat

def decDigitsVal (cs : List Char) : Nat := cs.foldl (fun a c => a * 10 + digitVal c) 0

def isHexDigit (c : Char) : Bool :=
  ('0' ≤ c ∧ c ≤ '9') ∨ ('a' ≤ c ∧ c ≤ 'f') ∨ ('A' ≤ c ∧ c ≤ 'F')

def hexDigitVal (c : Char) : Nat :=
  if '0' ≤ c ∧ c ≤ '9' then c.toNat - '0'.toNat
  else if 'a' ≤ c ∧ c ≤ 'f' then c.toNat - 'a'.toNat + 10
  else c.toNat - 'A'.toNat + 10

def hexDigitsVal (cs : List Char) : Nat := cs.foldl (fun a c => a * 16 + hexDigitVal c) 0

/-- JS `parseInt(s)` with the radix unspecified: skip leading whitespace,
read an optional sign, detect a `0x`/`0X` hexadecimal prefix, consume the
longest run of digits and ignore the rest; `none` models `NaN` (no digits).
(The float rounding JS applies to integers beyond 2^53 is not modelled.) -/
def parseIntJS (cs0 : List Char) : Option Int :=
  let cs := cs0.dropWhile Char.isWhitespace
  let signAndRest : Int × List Char :=
    match cs with
    | '-' :: rest => (-1, rest)
    | '+' :: rest => (1, rest)
    | _ => (1, cs)
  let sign := signAndRest.1
  let cs1 := signAndRest.2
  match cs1 with
  | '0' :: c :: rest =>
    if c = 'x' ∨ c = 'X' then
      let ds := rest.takeWhile isHexDigit
      if ds = [] then none else some (sign * (hexDigitsVal ds : Int))
    else
      let ds := cs1.takeWhile Char.isDigit
      some (sign * (decDigitsVal ds : Int))
  | _ =>
    let ds := cs1.takeWhile Char.isDigit
    if ds = [] then none else some (sign * (decDigitsVal ds : Int))

/-- The timestamp extraction shared by `getConnectedClients` (lines 148-161)
and `getChannelStats` (lines 203-213): parse the trailing segment of
`clientId`; keep the result only when it parsed (`!isNaN`) and is positive. -/
def jsTimestampOf (clientId : String) : Option Int :=
  match parseIntJS (lastSegment clientId) with
  | some parsed => if parsed > 0 then some parsed else none
  | none => none

/-- The view object pushed by `getConnectedClients` (lines 165-171). -/
structure SubscriberView where
  clientId : String
  channel : String
  ip : String
  connectedAt : Option String
  connectedAtTimestamp : Option Int
deriving Repr, DecidableEq

/-- The view object pushed by `getChannelStats` (lines 217-222); it carries
no `channel` field. -/
structure StatClientView where
  clientId : String
  ip : String
  connectedAt : Option String
  connectedAtTimestamp : Option Int
deriving Repr, DecidableEq

/-- `extractClientInfo` of `getConnectedClients` (source lines 148-172);
`toISO` stands for `ts => new Date(ts).toISOString()` (the stored timestamp
is positive, hence truthy, exactly when it is non-null). -/
def extractClientInfo (toISO : Int → String) (clientInfo : ClientInfo) :
    SubscriberView :=
  let timestamp := jsTimestampOf clientInfo.clientId
  SubscriberView.mk clientInfo.clientId clientInfo.channel clientInfo.ip
    (timestamp.map toISO) timestamp

/-- The per-client view built inline by `getChannelStats` (lines 203-222),
textually the same timestamp logic minus the `channel` field. -/
def statClientInfo (toISO : Int → String) (clientInfo : ClientInfo) :
    StatClientView :=
  let timestamp := jsTimestampOf clientInfo.clientId
  StatClientView.mk clientInfo.clientId clientInfo.ip (timestamp.map toISO) timestamp

/-- `getConnectedClients(channel = null)` (source lines 145-193): with a
truthy channel argument, the views of that channel's members that have a
metadata record; otherwise the views of every `clientMap` entry. -/
def getConnectedClients (toISO : Int → String) (s : RegistryState)
    (channel : Option String) : List SubscriberView :=
  match channel with
  | some c =>
    if c = "" then s.clientMap.map (fun p => extractClientInfo toISO p.2)
    else
      match mapGet s.channels c with
      | some channelClients =>
        channelClients.filterMap (fun r => (mapGet s.clientMap r).map (extractClientInfo toISO))
      | none => []
  | none => s.clientMap.map (fun p => extractClientInfo toISO p.2)

/-- The per-channel record of `getChannelStats` (lines 226-229): the size of
the channel's handle set, and the views of those members that have a
metadata record. -/
structure ChannelStat where
  clientCount : Nat
  clients : List StatClientView
deriving Repr, DecidableEq

def mkStat (toISO : Int → String) (cm : List (Res × ClientInfo))
    (channelClients : List Res) : ChannelStat :=
  ChannelStat.mk channelClients.length
    (channelClients.filterMap (fun r => (mapGet cm r).map (statClientInfo toISO)))

/-- `getChannelStats()` (source lines 195-233), as the association list from
channel name to its stat record, in channel-index order. -/
def getChannelStats (toISO : Int → String) (s : RegistryState) :
    List (String × ChannelStat) :=
  s.channels.map (fun p => (p.1, mkStat toISO s.clientMap p.2))

/-- Global invariant 1 of §3 of the specification: a subscriber appears in
the channel-index entry for its own `channel` value, or in none. -/
def inv1 (s : RegistryState) : Prop :=
  ∀ c set r info, mapGet s.channels c = some set → r ∈ set →
    mapGet s.clientMap r = some info → info.channel = c

/-- Global invariant 2 of §3: a subscriber appears in exactly the
AddressBinding set for its own `sourceAddress`, or in none. -/
def inv2 (s : RegistryState) : Prop :=
  ∀ a conns ci info, mapGet s.ipConnections a = some conns → ci ∈ conns →
    mapGet s.clientMap ci.res = some info → info.ip = a

/-- Global invariant 3 of §3: a channel entry exists in the channel index iff
its subscriber set is non-empty. -/
def inv3 (s : RegistryState) : Prop :=
  ∀ c set, mapGet s.channels c = some set → set ≠ []

/-- One registry operation with its environment (invariant 4 of §3 concerns
the liveness of the underlying transport connections, which lives outside
the three indexes; the index-level invariants are `inv1`-`inv3`). -/
inductive Op : Type where
  | sub (env : SEnv) (channel : String) (res : Res) (clientId ip : String)
  | unsub (channel : String) (res : Res)
  | bcast (env : BEnv) (rewriteImageUrls : View → View) (channel : String) (message : Message)

def step (s : RegistryState) : Op → RegistryState
  | Op.sub env channel res clientId ip => (subscribeClientRun env s channel res clientId ip).1
  | Op.unsub channel res => unsubscribeClientRun s channel res
  | Op.bcast env rwUrls channel message => (broadcastToChannelRun env rwUrls s channel message).1

/-- The precondition of `subscribe` (§4.1): the connection handle is not yet
known to the registry. -/
def freshRes (s : RegistryState) (res : Res) : Prop :=
  (∀ p ∈ s.clientMap, p.1 ≠ res) ∧ (∀ p ∈ s.channels, res ∉ p.2) ∧
  (∀ q ∈ s.ipConnections, ∀ ci ∈ q.2, ci.res ≠ res)

def opPre (s : RegistryState) : Op → Prop
  | Op.sub _ _ res _ _ => freshRes s res
  | Op.unsub _ _ => True
  | Op.bcast _ _ _ _ => True

/-- Lookup-level submap order: every binding of the first map is a binding of
the second. -/
def mapSub {α β : Type} [DecidableEq α] (m1 m2 : List (α × β)) : Prop :=
  ∀ k v, mapGet m1 k = some v → mapGet m2 k = some v

/-- Submap order for maps of sets: every entry of the first map is an entry
of the second with a superset value. -/
def lSub {α β : Type} [DecidableEq α] (m1 m2 : List (α × List β)) : Prop :=
  ∀ k l1, mapGet m1 k = some l1 → ∃ l2, mapGet m2 k = some l2 ∧ ∀ x ∈ l1, x ∈ l2

/-- Object-heap model for the mutation claim: message objects live at
numbered references. -/
abbrev MsgHeap := List (Nat × Message)

def freshRef (h : MsgHeap) : Nat := (h.map (fun p => p.1)).foldr Nat.max 0 + 1

/-- Heap-level rendering of the message-processing step (source lines 12-20):
`processedMessage` starts as the caller's object; for a transformable message
with a truthy `view`, `{ ...message, view: rewriteImageUrls(message.view) }`
allocates a FRESH object (the spread copies fields, it does not write to the
original), so the step returns the possibly extended heap and the reference
actually broadcast. -/
def processMessageAlloc (rewriteImageUrls : View → View) (h : MsgHeap) (ref : Nat) :
    MsgHeap × Nat :=
  match mapGet h ref with
  | none => (h, ref)
  | some message =>
    if message.type = "initial_view" ∨ message.type = "view_change" then
      match message.view with
      | some v =>
        let nref := freshRef h
        (h ++ [(nref, Message.mk message.type (some (rewriteImageUrls v)) message.body)], nref)
      | none => (h, ref)
    else (h, ref)

/-- Shared example environment: no handle destroyed, no close failure. -/
def envNone : SEnv := SEnv.mk (fun _ => false) (fun _ => false)

/-- Shared example environment: every write succeeds. -/
def bEnvOk : BEnv := BEnv.mk (fun _ => false)

/-- Shared example environment: every write fails. -/
def bEnvFail : BEnv := BEnv.mk (fun _ => true)

/-- The empty registry. -/
def emptyRegistry : RegistryState := RegistryState.mk [] [] []

/-! ### Lookup laws for the JS map and set embeddings -/

theorem mapGet_set_self {α β : Type} [DecidableEq α] (m : List (α × β)) (k : α) (v : β) :
    mapGet (mapSet m k v) k = some v := by
  induction m with
  | nil => simp [mapSet, mapGet]
  | cons p rest ih =>
    by_cases h : p.1 = k
    · simp [mapSet, h, mapGet]
    · simp [mapSet, h, mapGet, ih]

theorem mapGet_set_ne {α β : Type} [DecidableEq α] (m : List (α × β)) (k k' : α) (v : β)
    (h : k' ≠ k) : mapGet (mapSet m k v) k' = mapGet m k' := by
  induction m with
  | nil =>
    simp only [mapSet, mapGet]
    rw [if_neg (fun hh => h hh.symm)]
  | cons p rest ih =>
    simp only [mapSet]
    by_cases hp : p.1 = k
    · subst hp
      simp only [if_pos rfl, mapGet]
      rw [if_neg (fun hh => h hh.symm), if_neg (fun hh => h hh.symm)]
    · simp only [if_neg hp, mapGet, ih]

theorem mapGet_delete_self {α β : Type} [DecidableEq α] (m : List (α × β)) (k : α) :
    mapGet (mapDelete m k) k = none := by
  induction m with
  | nil => rfl
  | cons p rest ih =>
    by_cases h : p.1 = k
    · simp [mapDelete, h, ih]
    · simp [mapDelete, h, mapGet, ih]

theorem mapGet_delete_ne {α β : Type} [DecidableEq α] (m : List (α × β)) (k k' : α)
    (h : k' ≠ k) : mapGet (mapDelete m k) k' = mapGet m k' := by
  induction m with
  | nil => rfl
  | cons p rest ih =>
    by_cases hp : p.1 = k
    · simp only [mapDelete, if_pos hp, ih, mapGet]
      rw [if_neg (by rw [hp]; exact fun hh => h hh.symm)]
    · simp only [mapDelete, if_neg hp, mapGet, ih]

theorem mapGet_mem {α β : Type} [DecidableEq α] {m : List (α × β)} {k : α} {v : β}
    (h : mapGet m k = some v) : (k, v) ∈ m := by
  induction m with
  | nil => simp [mapGet] at h
  | cons p rest ih =>
    by_cases hp : p.1 = k
    · simp only [mapGet, if_pos hp] at h
      obtain ⟨a, b⟩ := p
      cases hp
      cases h
      exact List.mem_cons_self _ _
    · simp only [mapGet, if_neg hp] at h
      exact List.mem_cons_of_mem _ (ih h)

theorem mapHas_of_get {α β : Type} [DecidableEq α] {m : List (α × β)} {k : α} {v : β}
    (h : mapGet m k = some v) : mapHas m k = true := by simp [mapHas, h]

theorem mapHas_of_none {α β : Type} [DecidableEq α] {m : List (α × β)} {k : α}
    (h : mapGet m k = none) : mapHas m k = false := by simp [mapHas, h]

theorem get_none_of_has_false {α β : Type} [DecidableEq α] {m : List (α × β)} {k : α}
    (h : mapHas m k = false) : mapGet m k = none := by
  cases hg : mapGet m k with
  | none => rfl
  | some v => rw [mapHas, hg] at h; simp at h

theorem mem_setDelete {α : Type} [DecidableEq α] {l : List α} {x y : α} :
    x ∈ setDelete l y ↔ x ∈ l ∧ x ≠ y := by
  induction l with
  | nil => simp [setDelete]
  | cons z rest ih =>
    by_cases hz : z = y
    · subst hz
      simp only [setDelete, if_true, eq_self_iff_true]
      rw [ih]
      constructor
      · rintro ⟨hm, hne⟩
        exact ⟨List.mem_cons_of_mem _ hm, hne⟩
      · rintro ⟨hm, hne⟩
        rcases List.mem_cons.mp hm with rfl | hm2
        · exact absurd rfl hne
        · exact ⟨hm2, hne⟩
    · simp only [setDelete, if_neg hz]
      constructor
      · intro hm
        rcases List.mem_cons.mp hm with rfl | hm2
        · exact ⟨List.mem_cons_self _ _, hz⟩
        · obtain ⟨h1, h2⟩ := ih.mp hm2
          exact ⟨List.mem_cons_of_mem _ h1, h2⟩
      · rintro ⟨hm, hne⟩
        rcases List.mem_cons.mp hm with rfl | hm2
        · exact List.mem_cons_self _ _
        · exact List.mem_cons_of_mem _ (ih.mpr ⟨hm2, hne⟩)

theorem setDelete_eq_self {α : Type} [DecidableEq α] {l : List α} {x : α} (h : x ∉ l) :
    setDelete l x = l := by
  induction l with
  | nil => rfl
  | cons z rest ih =>
    simp only [List.mem_cons, not_or] at h
    simp only [setDelete]
    rw [if_neg (fun hh => h.1 hh.symm), ih h.2]

theorem mem_setAdd {α : Type} [DecidableEq α] {l : List α} {x y : α} :
    x ∈ setAdd l y ↔ x ∈ l ∨ x = y := by
  by_cases h : y ∈ l
  · simp only [setAdd, if_pos h]
    constructor
    · exact Or.inl
    · rintro (hm | rfl)
      · exact hm
      · exact h
  · simp [setAdd, if_neg h, List.mem_append]

theorem mapDelete_eq_self {α β : Type} [DecidableEq α] {m : List (α × β)} {k : α}
    (h : mapGet m k = none) : mapDelete m k = m := by
  induction m with
  | nil => rfl
  | cons p rest ih =>
    by_cases hp : p.1 = k
    · rw [mapGet, if_pos hp] at h; cases h
    · rw [mapGet, if_neg hp] at h
      simp only [mapDelete, if_neg hp, ih h]

theorem mapSet_eq_self {α β : Type} [DecidableEq α] {m : List (α × β)} {k : α} {v : β}
    (hn : (m.map Prod.fst).Nodup) (h : mapGet m k = some v) : mapSet m k v = m := by
  induction m with
  | nil => simp [mapGet] at h
  | cons p rest ih =>
    simp only [List.map_cons, List.nodup_cons] at hn
    by_cases hp : p.1 = k
    · rw [mapGet, if_pos hp] at h
      cases h
      cases p
      cases hp
      simp [mapSet]
    · rw [mapGet, if_neg hp] at h
      simp only [mapSet, if_neg hp, ih hn.2 h]

theorem mem_removeFirstRes {l : List ConnInfo} {r : Res} {ci : ConnInfo}
    (h : ci ∈ removeFirstRes l r) : ci ∈ l := by
  induction l with
  | nil => cases h
  | cons x rest ih =>
    by_cases hx : x.res = r
    · rw [removeFirstRes, if_pos hx] at h
      exact List.mem_cons_of_mem _ h
    · rw [removeFirstRes, if_neg hx] at h
      rcases List.mem_cons.mp h with rfl | hm
      · exact List.mem_cons_self _ _
      · exact List.mem_cons_of_mem _ (ih hm)

theorem chanDel_get (ch : List (String × List Res)) (c : String) (r : Res) (c' : String) :
    mapGet (chanDel ch c r) c' =
      if c' = c then Option.map (fun set => setDelete set r) (mapGet ch c)
      else mapGet ch c' := by
  by_cases hc : c' = c
  · subst hc
    cases hg : mapGet ch c' with
    | none => simp [chanDel, hg]
    | some set => simp [chanDel, hg, mapGet_set_self]
  · cases hg : mapGet ch c with
    | none => simp [chanDel, hg, if_neg hc]
    | some set => simp [chanDel, hg, mapGet_set_ne _ _ _ _ hc, if_neg hc]

/-! ### Submap orders and monotonicity of the invariants -/

theorem mapSub_refl {α β : Type} [DecidableEq α] (m : List (α × β)) : mapSub m m :=
  fun _ _ h => h

theorem mapSub_trans {α β : Type} [DecidableEq α] {m1 m2 m3 : List (α × β)}
    (h12 : mapSub m1 m2) (h23 : mapSub m2 m3) : mapSub m1 m3 :=
  fun k v h => h23 k v (h12 k v h)

theorem mapSub_delete {α β : Type} [DecidableEq α] (m : List (α × β)) (k : α) :
    mapSub (mapDelete m k) m := by
  intro k' v h
  by_cases hk : k' = k
  · subst hk
    rw [mapGet_delete_self] at h
    cases h
  · rwa [mapGet_delete_ne _ _ _ hk] at h

theorem lSub_refl {α β : Type} [DecidableEq α] (m : List (α × List β)) : lSub m m :=
  fun _ l1 h => ⟨l1, h, fun _ hx => hx⟩

theorem lSub_trans {α β : Type} [DecidableEq α] {m1 m2 m3 : List (α × List β)}
    (h12 : lSub m1 m2) (h23 : lSub m2 m3) : lSub m1 m3 := by
  intro k l1 h
  obtain ⟨l2, h2, s12⟩ := h12 k l1 h
  obtain ⟨l3, h3, s23⟩ := h23 k l2 h2
  exact ⟨l3, h3, fun x hx => s23 x (s12 x hx)⟩

theorem lSub_chanDel (ch : List (String × List Res)) (c : String) (r : Res) :
    lSub (chanDel ch c r) ch := by
  intro k l1 h
  rw [chanDel_get] at h
  by_cases hk : k = c
  · rw [if_pos hk] at h
    cases hg : mapGet ch c with
    | none => rw [hg] at h; cases h
    | some set =>
      rw [hg] at h
      cases h
      subst hk
      exact ⟨set, hg, fun x hx => (mem_setDelete.mp hx).1⟩
  · rw [if_neg hk] at h
    exact ⟨l1, h, fun _ hx => hx⟩

theorem lSub_get_none {α β : Type} [DecidableEq α] {m1 m2 : List (α × List β)} {k : α}
    (hs : lSub m1 m2) (h : mapGet m2 k = none) : mapGet m1 k = none := by
  cases hg : mapGet m1 k with
  | none => rfl
  | some l1 =>
    obtain ⟨l2, h2, _⟩ := hs k l1 hg
    rw [h] at h2
    cases h2

theorem inv1_mono {s s' : RegistryState} (hch : lSub s'.channels s.channels)
    (hcm : mapSub s'.clientMap s.clientMap) (h : inv1 s) : inv1 s' := by
  intro c set r info hset hr hinfo
  obtain ⟨set0, hset0, hsub⟩ := hch c set hset
  exact h c set0 r info hset0 (hsub r hr) (hcm r info hinfo)

theorem inv2_mono {s s' : RegistryState} (hipc : lSub s'.ipConnections s.ipConnections)
    (hcm : mapSub s'.clientMap s.clientMap) (h : inv2 s) : inv2 s' := by
  intro a conns ci info ha hci hinfo
  obtain ⟨conns0, h0, hsub⟩ := hipc a conns ha
  exact h a conns0 ci info h0 (hsub ci hci) (hcm _ _ hinfo)

/-! ### The exception-level operations never escape their catches -/

theorem evictLoopE_eq_ok (env : SEnv) (l : List ConnInfo) :
    ∀ ch cm calls, evictLoopE env l ch cm calls = Except.ok (evictLoopP env l ch cm calls) := by
  induction l with
  | nil => intro ch cm calls; rfl
  | cons ci rest ih =>
    intro ch cm calls
    simp only [evictLoopE, evictLoopP]
    by_cases hd : env.destroyed ci.res
    · simp only [hd, if_true]
      exact ih _ _ _
    · simp only [hd, if_false, Bool.false_eq_true, destroyJS]
      by_cases hc : env.closeFails ci.res
      · simp only [hc, if_true]
        exact ih _ _ _
      · simp only [hc, if_false, Bool.false_eq_true]
        exact ih _ _ _

theorem bcastLoopE_eq_ok (env : BEnv) (channel : String) (pm : Message) (l : List Res) :
    ∀ s acc, bcastLoopE env channel pm l s acc = Except.ok (bcastLoopP env channel pm l s acc) := by
  induction l with
  | nil => intro s acc; rfl
  | cons r rest ih =>
    intro s acc
    simp only [bcastLoopE, bcastLoopP, writeJS]
    by_cases hf : env.fails r
    · simp only [hf, if_true]
      exact ih _ _
    · simp only [hf, if_false, Bool.false_eq_true]
      exact ih _ _

theorem subscribeClient_eq_ok (env : SEnv) (s : RegistryState) (channel : String)
    (res : Res) (clientId ip : String) :
    subscribeClient env s channel res clientId ip =
      Except.ok (insertPhase (evictPhase env s ip).1 channel res clientId ip,
        (evictPhase env s ip).2) := by
  by_cases h : mapHas s.ipConnections ip
  · simp [subscribeClient, evictPhase, h, evictLoopE_eq_ok, Bind.bind, Except.bind,
      Pure.pure, Except.pure]
  · simp [subscribeClient, evictPhase, h, Bind.bind, Except.bind, Pure.pure, Except.pure]

theorem subscribeClientRun_eq (env : SEnv) (s : RegistryState) (channel : String)
    (res : Res) (clientId ip : String) :
    subscribeClientRun env s channel res clientId ip =
      (insertPhase (evictPhase env s ip).1 channel res clientId ip,
        (evictPhase env s ip).2) := by
  rw [subscribeClientRun, subscribeClient_eq_ok]

theorem broadcastToChannelRun_eq (env : BEnv) (rwUrls : View → View) (s : RegistryState)
    (channel : String) (message : Message) :
    broadcastToChannelRun env rwUrls s channel message =
      match mapGet s.channels channel with
      | none => (s, [])
      | some clients => bcastLoopP env channel (processMessage rwUrls message) clients s [] := by
  cases h : mapGet s.channels channel with
  | none => simp [broadcastToChannelRun, broadcastToChannel, h]
  | some clients => simp [broadcastToChannelRun, broadcastToChannel, h, bcastLoopE_eq_ok]

theorem unsubscribeClientRun_eq (s : RegistryState) (channel : String) (res : Res) :
    unsubscribeClient s channel res = Except.ok (unsubscribeClientRun s channel res) := by
  rw [unsubscribeClientRun]
  cases h : mapGet s.channels channel with
  | none => simp only [unsubscribeClient, h]
  | some clients => simp only [unsubscribeClient, h]

/-! ### Shape facts about the loops and phases -/

theorem evictLoopP_lSub (env : SEnv) (l : List ConnInfo) :
    ∀ ch cm calls, lSub (evictLoopP env l ch cm calls).1 ch := by
  induction l with
  | nil => intro ch cm calls; exact lSub_refl _
  | cons ci rest ih =>
    intro ch cm calls
    simp only [evictLoopP]
    exact lSub_trans (ih _ _ _) (lSub_chanDel _ _ _)

theorem evictLoopP_mapSub (env : SEnv) (l : List ConnInfo) :
    ∀ ch cm calls, mapSub (evictLoopP env l ch cm calls).2.1 cm := by
  induction l with
  | nil => intro ch cm calls; exact mapSub_refl _
  | cons ci rest ih =>
    intro ch cm calls
    simp only [evictLoopP]
    exact mapSub_trans (ih _ _ _) (mapSub_delete _ _)

theorem bcastLoopP_lSub (env : BEnv) (channel : String) (pm : Message) (l : List Res) :
    ∀ s acc, lSub (bcastLoopP env channel pm l s acc).1.channels s.channels := by
  induction l with
  | nil => intro s acc; exact lSub_refl _
  | cons r rest ih =>
    intro s acc
    simp only [bcastLoopP]
    by_cases hf : env.fails r
    · simp only [hf, if_true]
      exact lSub_trans (ih _ _) (lSub_chanDel _ _ _)
    · simp only [hf, if_false, Bool.false_eq_true]
      exact ih _ _

theorem bcastLoopP_mapSub (env : BEnv) (channel : String) (pm : Message) (l : List Res) :
    ∀ s acc, mapSub (bcastLoopP env channel pm l s acc).1.clientMap s.clientMap := by
  induction l with
  | nil => intro s acc; exact mapSub_refl _
  | cons r rest ih =>
    intro s acc
    simp only [bcastLoopP]
    by_cases hf : env.fails r
    · simp only [hf, if_true]
      exact mapSub_trans (ih _ _) (mapSub_delete _ _)
    · simp only [hf, if_false, Bool.false_eq_true]
      exact ih _ _

theorem bcastLoopP_ipc (env : BEnv) (channel : String) (pm : Message) (l : List Res) :
    ∀ s acc, (bcastLoopP env channel pm l s acc).1.ipConnections = s.ipConnections := by
  induction l with
  | nil => intro s acc; rfl
  | cons r rest ih =>
    intro s acc
    simp only [bcastLoopP]
    by_cases hf : env.fails r
    · simp only [hf, if_true]
      exact ih _ _
    · simp only [hf, if_false, Bool.false_eq_true]
      exact ih _ _

theorem bcastLoopP_attempts (env : BEnv) (channel : String) (pm : Message) (l : List Res) :
    ∀ s acc, (bcastLoopP env channel pm l s acc).2 =
      acc ++ l.map (fun r => WriteAttempt.mk r pm (!env.fails r)) := by
  induction l with
  | nil => intro s acc; simp [bcastLoopP]
  | cons r rest ih =>
    intro s acc
    simp only [bcastLoopP, List.map_cons]
    by_cases hf : env.fails r
    · simp [hf, ih]
    · simp [hf, ih]

theorem evictPhase_lSub (env : SEnv) (s : RegistryState) (ip : String) :
    lSub (evictPhase env s ip).1.channels s.channels := by
  rw [evictPhase]
  by_cases h : mapHas s.ipConnections ip
  · simp only [h, if_true]
    exact evictLoopP_lSub _ _ _ _ _
  · simp only [h, if_false, Bool.false_eq_true]
    exact lSub_refl _

theorem evictPhase_mapSub (env : SEnv) (s : RegistryState) (ip : String) :
    mapSub (evictPhase env s ip).1.clientMap s.clientMap := by
  rw [evictPhase]
  by_cases h : mapHas s.ipConnections ip
  · simp only [h, if_true]
    exact evictLoopP_mapSub _ _ _ _ _
  · simp only [h, if_false, Bool.false_eq_true]
    exact mapSub_refl _

theorem evictPhase_ipc_ip (env : SEnv) (s : RegistryState) (ip : String) :
    mapGet (evictPhase env s ip).1.ipConnections ip = none := by
  rw [evictPhase]
  by_cases h : mapHas s.ipConnections ip
  · simp only [h, if_true]
    exact mapGet_delete_self _ _
  · simp only [h, if_false, Bool.false_eq_true]
    simp only [Bool.not_eq_true] at h
    exact get_none_of_has_false h

theorem evictPhase_ipc_ne (env : SEnv) (s : RegistryState) (ip a : String) (h : a ≠ ip) :
    mapGet (evictPhase env s ip).1.ipConnections a = mapGet s.ipConnections a := by
  rw [evictPhase]
  by_cases hh : mapHas s.ipConnections ip
  · simp only [hh, if_true]
    exact mapGet_delete_ne _ _ _ h
  · simp only [hh, if_false, Bool.false_eq_true]

theorem insertPhase_channels_self (s : RegistryState) (channel : String) (res : Res)
    (clientId ip : String) :
    mapGet (insertPhase s channel res clientId ip).channels channel =
      some (setAdd ((mapGet s.channels channel).getD []) res) := by
  simp only [insertPhase]
  by_cases h : mapHas s.channels channel
  · simp only [h, if_true]
    exact mapGet_set_self _ _ _
  · simp only [h, if_false, Bool.false_eq_true]
    simp only [Bool.not_eq_true] at h
    rw [mapGet_set_self, mapGet_set_self, get_none_of_has_false h]
    rfl

theorem insertPhase_channels_ne (s : RegistryState) (channel : String) (res : Res)
    (clientId ip : String) (c : String) (hc : c ≠ channel) :
    mapGet (insertPhase s channel res clientId ip).channels c = mapGet s.channels c := by
  simp only [insertPhase]
  rw [mapGet_set_ne _ _ _ _ hc]
  by_cases h : mapHas s.channels channel
  · simp only [h, if_true]
  · simp only [h, if_false, Bool.false_eq_true]
    exact mapGet_set_ne _ _ _ _ hc

theorem insertPhase_clientMap_self (s : RegistryState) (channel : String) (res : Res)
    (clientId ip : String) :
    mapGet (insertPhase s channel res clientId ip).clientMap res =
      some (ClientInfo.mk clientId channel ip) := by
  simp only [insertPhase]
  exact mapGet_set_self _ _ _

theorem insertPhase_clientMap_ne (s : RegistryState) (channel : String) (res : Res)
    (clientId ip : String) (r : Res) (hr : r ≠ res) :
    mapGet (insertPhase s channel res clientId ip).clientMap r = mapGet s.clientMap r := by
  simp only [insertPhase]
  exact mapGet_set_ne _ _ _ _ hr

theorem insertPhase_ipc_self (s : RegistryState) (channel : String) (res : Res)
    (clientId ip : String) :
    mapGet (insertPhase s channel res clientId ip).ipConnections ip =
      some (((mapGet s.ipConnections ip).getD []) ++ [ConnInfo.mk res channel]) := by
  simp only [insertPhase]
  by_cases h : mapHas s.ipConnections ip
  · simp only [h, if_true]
    exact mapGet_set_self _ _ _
  · simp only [h, if_false, Bool.false_eq_true]
    simp only [Bool.not_eq_true] at h
    rw [mapGet_set_self, mapGet_set_self, get_none_of_has_false h]
    rfl

theorem insertPhase_ipc_ne (s : RegistryState) (channel : String) (res : Res)
    (clientId ip : String) (a : String) (ha : a ≠ ip) :
    mapGet (insertPhase s channel res clientId ip).ipConnections a =
      mapGet s.ipConnections a := by
  simp only [insertPhase]
  rw [mapGet_set_ne _ _ _ _ ha]
  by_cases h : mapHas s.ipConnections ip
  · simp only [h, if_true]
  · simp only [h, if_false, Bool.false_eq_true]
    exact mapGet_set_ne _ _ _ _ ha

/-! ### Structure facts about `unsubscribeClient` -/

theorem unsub_channels_lSub (s : RegistryState) (channel : String) (res : Res) :
    lSub (unsubscribeClientRun s channel res).channels s.channels := by
  rw [unsubscribeClientRun]
  cases hch : mapGet s.channels channel with
  | none =>
    simp only [unsubscribeClient, hch]
    exact lSub_refl _
  | some clients =>
    simp only [unsubscribeClient, hch]
    intro c l1 h
    by_cases hemp : setDelete clients res = []
    · rw [if_pos hemp] at h
      by_cases hcc : c = channel
      · subst hcc
        rw [mapGet_delete_self] at h
        cases h
      · rw [mapGet_delete_ne _ _ _ hcc, mapGet_set_ne _ _ _ _ hcc] at h
        exact ⟨l1, h, fun _ hx => hx⟩
    · rw [if_neg hemp] at h
      by_cases hcc : c = channel
      · subst hcc
        rw [mapGet_set_self] at h
        cases h
        exact ⟨clients, hch, fun x hx => (mem_setDelete.mp hx).1⟩
      · rw [mapGet_set_ne _ _ _ _ hcc] at h
        exact ⟨l1, h, fun _ hx => hx⟩

theorem unsub_clientMap_mapSub (s : RegistryState) (channel : String) (res : Res) :
    mapSub (unsubscribeClientRun s channel res).clientMap s.clientMap := by
  rw [unsubscribeClientRun]
  cases hch : mapGet s.channels channel with
  | none =>
    simp only [unsubscribeClient, hch]
    exact mapSub_refl _
  | some clients =>
    simp only [unsubscribeClient, hch]
    exact mapSub_delete _ _

theorem unsub_ipc_lSub (s : RegistryState) (channel : String) (res : Res) :
    lSub (unsubscribeClientRun s channel res).ipConnections s.ipConnections := by
  rw [unsubscribeClientRun]
  cases hch : mapGet s.channels channel with
  | none =>
    simp only [unsubscribeClient, hch]
    exact lSub_refl _
  | some clients =>
    cases hinfo : mapGet s.clientMap res with
    | none =>
      simp only [unsubscribeClient, hch, hinfo]
      exact lSub_refl _
    | some info =>
      by_cases hip0 : info.ip = ""
      · simp only [unsubscribeClient, hch, hinfo, hip0, if_pos rfl]
        exact lSub_refl _
      · simp only [unsubscribeClient, hch, hinfo, if_neg hip0]
        cases hig : mapGet s.ipConnections info.ip with
        | none =>
          simp only [hig]
          exact lSub_refl _
        | some ipConns =>
          simp only [hig]
          intro a l1 h
          by_cases hemp : removeFirstRes ipConns res = []
          · rw [if_pos hemp] at h
            by_cases haa : a = info.ip
            · subst haa
              rw [mapGet_delete_self] at h
              cases h
            · rw [mapGet_delete_ne _ _ _ haa, mapGet_set_ne _ _ _ _ haa] at h
              exact ⟨l1, h, fun _ hx => hx⟩
          · rw [if_neg hemp] at h
            by_cases haa : a = info.ip
            · subst haa
              rw [mapGet_set_self] at h
              cases h
              exact ⟨ipConns, hig, fun x hx => mem_removeFirstRes hx⟩
            · rw [mapGet_set_ne _ _ _ _ haa] at h
              exact ⟨l1, h, fun _ hx => hx⟩

theorem inv3_unsub (s : RegistryState) (channel : String) (res : Res) (h3 : inv3 s) :
    inv3 (unsubscribeClientRun s channel res) := by
  rw [unsubscribeClientRun]
  cases hch : mapGet s.channels channel with
  | none =>
    simp only [unsubscribeClient, hch]
    exact h3
  | some clients =>
    simp only [unsubscribeClient, hch]
    intro c set h
    by_cases hemp : setDelete clients res = []
    · rw [if_pos hemp] at h
      by_cases hcc : c = channel
      · subst hcc
        rw [mapGet_delete_self] at h
        cases h
      · rw [mapGet_delete_ne _ _ _ hcc, mapGet_set_ne _ _ _ _ hcc] at h
        exact h3 c set h
    · rw [if_neg hemp] at h
      by_cases hcc : c = channel
      · subst hcc
        rw [mapGet_set_self] at h
        cases h
        exact hemp
      · rw [mapGet_set_ne _ _ _ _ hcc] at h
        exact h3 c set h

/-! ### Preservation of invariants 1 and 2 by each operation -/

theorem inv12_bcast (env : BEnv) (rwUrls : View → View) (s : RegistryState)
    (channel : String) (message : Message) (h1 : inv1 s) (h2 : inv2 s) :
    inv1 (broadcastToChannelRun env rwUrls s channel message).1 ∧
    inv2 (broadcastToChannelRun env rwUrls s channel message).1 := by
  rw [broadcastToChannelRun_eq]
  cases h : mapGet s.channels channel with
  | none => exact ⟨h1, h2⟩
  | some clients =>
    constructor
    · exact inv1_mono (bcastLoopP_lSub _ _ _ _ _ _) (bcastLoopP_mapSub _ _ _ _ _ _) h1
    · refine inv2_mono ?_ (bcastLoopP_mapSub _ _ _ _ _ _) h2
      rw [bcastLoopP_ipc]
      exact lSub_refl _

theorem inv12_unsub (s : RegistryState) (channel : String) (res : Res)
    (h1 : inv1 s) (h2 : inv2 s) :
    inv1 (unsubscribeClientRun s channel res) ∧ inv2 (unsubscribeClientRun s channel res) :=
  ⟨inv1_mono (unsub_channels_lSub s channel res) (unsub_clientMap_mapSub s channel res) h1,
   inv2_mono (unsub_ipc_lSub s channel res) (unsub_clientMap_mapSub s channel res) h2⟩

theorem inv12_sub (env : SEnv) (s : RegistryState) (channel : String) (res : Res)
    (clientId ip : String) (hf : freshRes s res) (h1 : inv1 s) (h2 : inv2 s) :
    inv1 (subscribeClientRun env s channel res clientId ip).1 ∧
    inv2 (subscribeClientRun env s channel res clientId ip).1 := by
  rw [subscribeClientRun_eq]
  have hchS : lSub (evictPhase env s ip).1.channels s.channels := evictPhase_lSub env s ip
  have hcmS : mapSub (evictPhase env s ip).1.clientMap s.clientMap := evictPhase_mapSub env s ip
  have hipcN : mapGet (evictPhase env s ip).1.ipConnections ip = none := evictPhase_ipc_ip env s ip
  constructor
  · intro c set r info hset hr hinfo
    by_cases hcc : c = channel
    · subst hcc
      rw [insertPhase_channels_self] at hset
      cases hset
      by_cases hrr : r = res
      · subst hrr
        rw [insertPhase_clientMap_self] at hinfo
        cases hinfo
        rfl
      · rw [insertPhase_clientMap_ne _ _ _ _ _ _ hrr] at hinfo
        rcases mem_setAdd.mp hr with hr1 | hr1
        · cases hg : mapGet (evictPhase env s ip).1.channels c with
          | none =>
            rw [hg] at hr1
            simp only [Option.getD] at hr1
            cases hr1
          | some set0 =>
            rw [hg] at hr1
            simp only [Option.getD] at hr1
            obtain ⟨set1, hs1, hsub⟩ := hchS c set0 hg
            exact h1 c set1 r info hs1 (hsub r hr1) (hcmS r info hinfo)
        · exact absurd hr1 hrr
    · rw [insertPhase_channels_ne _ _ _ _ _ _ hcc] at hset
      obtain ⟨set1, hs1, hsub⟩ := hchS c set hset
      by_cases hrr : r = res
      · subst hrr
        exact absurd (hsub r hr) (hf.2.1 (c, set1) (mapGet_mem hs1))
      · rw [insertPhase_clientMap_ne _ _ _ _ _ _ hrr] at hinfo
        exact h1 c set1 r info hs1 (hsub r hr) (hcmS r info hinfo)
  · intro a conns ci info ha hci hinfo
    by_cases haa : a = ip
    · subst haa
      rw [insertPhase_ipc_self] at ha
      cases ha
      rw [hipcN] at hci
      simp only [Option.getD, List.nil_append] at hci
      rcases List.mem_singleton.mp hci with rfl
      rw [insertPhase_clientMap_self] at hinfo
      cases hinfo
      rfl
    · rw [insertPhase_ipc_ne _ _ _ _ _ _ haa] at ha
      rw [evictPhase_ipc_ne _ _ _ _ haa] at ha
      by_cases hres : ci.res = res
      · exact absurd hres (hf.2.2 (a, conns) (mapGet_mem ha) ci hci)
      · rw [insertPhase_clientMap_ne _ _ _ _ _ _ hres] at hinfo
        exact h2 a conns ci info ha hci (hcmS _ _ hinfo)

/-! ### Message processing, heap, and stats helper lemmas -/

theorem processMessage_transformable (rwUrls : View → View) (m : Message) (v : View)
    (ht : m.type = "initial_view" ∨ m.type = "view_change") (hv : m.view = some v) :
    processMessage rwUrls m = Message.mk m.type (some (rwUrls v)) m.body := by
  rw [processMessage, if_pos ht, hv]

theorem processMessage_noview (rwUrls : View → View) (m : Message)
    (hv : m.view = none) : processMessage rwUrls m = m := by
  rw [processMessage]
  by_cases ht : m.type = "initial_view" ∨ m.type = "view_change"
  · rw [if_pos ht, hv]
  · rw [if_neg ht]

theorem processMessage_other (rwUrls : View → View) (m : Message)
    (ht : ¬(m.type = "initial_view" ∨ m.type = "view_change")) :
    processMessage rwUrls m = m := by
  rw [processMessage, if_neg ht]

theorem broadcastToChannel_eq_ok (env : BEnv) (rwUrls : View → View) (s : RegistryState)
    (channel : String) (message : Message) :
    broadcastToChannel env rwUrls s channel message =
      Except.ok (broadcastToChannelRun env rwUrls s channel message) := by
  cases h : mapGet s.channels channel with
  | none => simp [broadcastToChannel, broadcastToChannelRun, h]
  | some clients => simp [broadcastToChannel, broadcastToChannelRun, h, bcastLoopE_eq_ok]

theorem mapGet_append_left {α β : Type} [DecidableEq α] {h : List (α × β)} {k : α} {v : β}
    (l : List (α × β)) (hg : mapGet h k = some v) : mapGet (h ++ l) k = some v := by
  induction h with
  | nil => simp [mapGet] at hg
  | cons p rest ih =>
    by_cases hp : p.1 = k
    · rw [mapGet, if_pos hp] at hg
      rw [List.cons_append, mapGet, if_pos hp]
      exact hg
    · rw [mapGet, if_neg hp] at hg
      rw [List.cons_append, mapGet, if_neg hp]
      exact ih hg

theorem mapGet_append_fresh {α β : Type} [DecidableEq α] {h : List (α × β)} {k : α}
    (x : β) (hg : mapGet h k = none) : mapGet (h ++ [(k, x)]) k = some x := by
  induction h with
  | nil => simp [mapGet]
  | cons p rest ih =>
    by_cases hp : p.1 = k
    · rw [mapGet, if_pos hp] at hg
      cases hg
    · rw [mapGet, if_neg hp] at hg
      rw [List.cons_append, mapGet, if_neg hp]
      exact ih hg

theorem key_le_fold {h : MsgHeap} {k : Nat} {v : Message} (hm : (k, v) ∈ h) :
    k ≤ (h.map (fun p => p.1)).foldr Nat.max 0 := by
  induction h with
  | nil => cases hm
  | cons p rest ih =>
    rcases List.mem_cons.mp hm with rfl | hm2
    · exact Nat.le_max_left _ _
    · exact Nat.le_trans (ih hm2) (Nat.le_max_right _ _)

theorem freshRef_get_none (h : MsgHeap) : mapGet h (freshRef h) = none := by
  cases hg : mapGet h (freshRef h) with
  | none => rfl
  | some v =>
    have hle := key_le_fold (mapGet_mem hg)
    rw [freshRef] at hle
    exact absurd hle (Nat.not_succ_le_self _)

theorem freshRef_ne {h : MsgHeap} {ref : Nat} {v : Message}
    (hg : mapGet h ref = some v) : freshRef h ≠ ref := by
  intro heq
  rw [← heq] at hg
  rw [freshRef_get_none] at hg
  cases hg

theorem statsGet (toISO : Int → String) (cm : List (Res × ClientInfo))
    (l : List (String × List Res)) (k : String) :
    mapGet (l.map (fun p => (p.1, mkStat toISO cm p.2))) k =
      (mapGet l k).map (mkStat toISO cm) := by
  induction l with
  | nil => rfl
  | cons p rest ih =>
    by_cases h : p.1 = k
    · simp [mapGet, h]
    · simp [mapGet, h, ih]

theorem getChannelStats_get (toISO : Int → String) (s : RegistryState) (k : String) :
    mapGet (getChannelStats toISO s) k =
      (mapGet s.channels k).map (mkStat toISO s.clientMap) := by
  rw [getChannelStats]
  exact statsGet toISO s.clientMap s.channels k

/-! ### Claims -/

/-- C1 (amended): for every registry operation (subscribe respecting its
freshness precondition), invariants 1 and 2 of §3 are preserved, and
invariant 3 is preserved by unsubscribe.  (As the counterexample
`invariants_broken_by_failed_broadcast` shows, invariant 3 is NOT preserved
by a broadcast with a failing write: the emptied channel entry stays in the
channel index, so the claim as stated is false.) -/
theorem inv12_preserved_by_every_operation :
    ∀ (s : RegistryState) (op : Op), opPre s op → inv1 s → inv2 s →
      (inv1 (step s op) ∧ inv2 (step s op)) ∧
      (∀ channel res, op = Op.unsub channel res → inv3 s → inv3 (step s op)) := by
  intro s op hpre h1 h2
  cases op with
  | sub env channel res clientId ip =>
    refine ⟨inv12_sub env s channel res clientId ip hpre h1 h2, ?_⟩
    intro c r h
    cases h
  | unsub channel res =>
    refine ⟨inv12_unsub s channel res h1 h2, ?_⟩
    intro c r h h3
    exact inv3_unsub s channel res h3
  | bcast env rwUrls channel message =>
    refine ⟨inv12_bcast env rwUrls s channel message h1 h2, ?_⟩
    intro c r h
    cases h

/-- Witness for `inv12_preserved_by_every_operation` at a concrete input:
subscribing a fresh handle to the empty registry preserves invariants 1-2. -/
theorem inv12_preserved_by_every_operation_witness :
    inv1 (step emptyRegistry (Op.sub envNone "X" 1 "c-1" "a")) ∧
    inv2 (step emptyRegistry (Op.sub envNone "X" 1 "c-1" "a")) :=
  (inv12_preserved_by_every_operation emptyRegistry (Op.sub envNone "X" 1 "c-1" "a")
    (by simp [opPre, freshRes, emptyRegistry])
    (by intro c set r info h hr hi; simp [mapGet, emptyRegistry] at h)
    (by intro a conns ci info h hc hi; simp [mapGet, emptyRegistry] at h)).1

/-- C1 counterexample: subscribe one client to channel `X` of the empty
registry, then broadcast with that client's write failing.  The broadcast
error path removes the client from the channel's set but never deletes the
emptied channel entry, so invariant 3 (channel entry iff non-empty
subscriber set) is violated after the operation — invariants 1-4 do NOT all
hold after every operation. -/
theorem invariants_broken_by_failed_broadcast :
    ¬ (inv1 (step (step emptyRegistry (Op.sub envNone "X" 1 "c-1" "a"))
          (Op.bcast bEnvFail id "X" (Message.mk "m" none ""))) ∧
       inv2 (step (step emptyRegistry (Op.sub envNone "X" 1 "c-1" "a"))
          (Op.bcast bEnvFail id "X" (Message.mk "m" none ""))) ∧
       inv3 (step (step emptyRegistry (Op.sub envNone "X" 1 "c-1" "a"))
          (Op.bcast bEnvFail id "X" (Message.mk "m" none "")))) := by
  intro h
  exact h.2.2 "X" [] (by decide) rfl

/-- C6: no registry operation raises an error visible to its caller:
`subscribeClient`, `unsubscribeClient` and `broadcastToChannel` return an
`Except.ok` result for every input state, channel, message, handle and
environment (every throwing collaborator call — `write`, `destroy` — is
wrapped in a catch at exactly the places the source wraps it). -/
theorem operations_never_throw :
    ∀ (env : SEnv) (benv : BEnv) (rwUrls : View → View) (s : RegistryState)
      (channel : String) (res : Res) (clientId ip : String) (message : Message),
      (∃ out, subscribeClient env s channel res clientId ip = Except.ok out) ∧
      (∃ out, unsubscribeClient s channel res = Except.ok out) ∧
      (∃ out, broadcastToChannel benv rwUrls s channel message = Except.ok out) :=
  fun env benv rwUrls s channel res clientId ip message =>
    ⟨⟨_, subscribeClient_eq_ok env s channel res clientId ip⟩,
     ⟨_, unsubscribeClientRun_eq s channel res⟩,
     ⟨_, broadcastToChannel_eq_ok benv rwUrls s channel message⟩⟩

/-- C2 (amended): broadcasting to a channel whose subscriber set is
`{S1, S2}` where S1's write fails and S2's succeeds delivers the (possibly
transformed) message to S2, does not abort on S1's failure, removes S1 from
the channel's set and from the subscriber metadata map, and a subsequent
broadcast to the same channel attempts a write only to S2 — but, contrary to
the claim, S1 is NOT removed from the AddressBinding index: the broadcast
error path never touches `ipConnections` (the final conjunct below states
that the binding index is unchanged; see
`write_failure_leaves_address_binding`). -/
theorem broadcast_write_failure_behavior :
    ∀ (env env2 : BEnv) (rwUrls rwUrls2 : View → View) (s : RegistryState) (c : String)
      (m m2 : Message) (r1 r2 : Res) (info2 : ClientInfo),
      mapGet s.channels c = some [r1, r2] → r1 ≠ r2 →
      env.fails r1 = true → env.fails r2 = false →
      mapGet s.clientMap r2 = some info2 →
      (broadcastToChannelRun env rwUrls s c m).2 =
        [WriteAttempt.mk r1 (processMessage rwUrls m) false,
         WriteAttempt.mk r2 (processMessage rwUrls m) true] ∧
      mapGet (broadcastToChannelRun env rwUrls s c m).1.channels c = some [r2] ∧
      mapGet (broadcastToChannelRun env rwUrls s c m).1.clientMap r1 = none ∧
      mapGet (broadcastToChannelRun env rwUrls s c m).1.clientMap r2 = some info2 ∧
      (broadcastToChannelRun env rwUrls s c m).1.ipConnections = s.ipConnections ∧
      (broadcastToChannelRun env2 rwUrls2 (broadcastToChannelRun env rwUrls s c m).1 c m2).2 =
        [WriteAttempt.mk r2 (processMessage rwUrls2 m2) (!env2.fails r2)] := by
  intro env env2 rwUrls rwUrls2 s c m m2 r1 r2 info2 hch hne hf1 hf2 hinfo2
  have hne2 : ¬ r2 = r1 := fun h => hne h.symm
  have hsd : setDelete [r1, r2] r1 = [r2] := by
    simp [setDelete, hne2]
  have hcd : chanDel s.channels c r1 = mapSet s.channels c [r2] := by
    simp only [chanDel, hch]
    rw [hsd]
  have hrun : broadcastToChannelRun env rwUrls s c m =
      (RegistryState.mk (mapSet s.channels c [r2]) (mapDelete s.clientMap r1)
        s.ipConnections,
       [WriteAttempt.mk r1 (processMessage rwUrls m) false,
        WriteAttempt.mk r2 (processMessage rwUrls m) true]) := by
    rw [broadcastToChannelRun_eq, hch]
    simp [bcastLoopP, hf1, hf2, hcd]
  refine ⟨by rw [hrun], ?_, ?_, ?_, by rw [hrun], ?_⟩
  · rw [hrun]
    exact mapGet_set_self _ _ _
  · rw [hrun]
    exact mapGet_delete_self _ _
  · rw [hrun]
    have := mapGet_delete_ne s.clientMap r1 r2 (Ne.symm hne)
    rw [show (RegistryState.mk (mapSet s.channels c [r2]) (mapDelete s.clientMap r1)
      s.ipConnections, [WriteAttempt.mk r1 (processMessage rwUrls m) false,
      WriteAttempt.mk r2 (processMessage rwUrls m) true]).1.clientMap =
        mapDelete s.clientMap r1 from rfl, this]
    exact hinfo2
  · rw [hrun, broadcastToChannelRun_eq]
    simp only [mapGet_set_self]
    by_cases hb : env2.fails r2
    · simp [bcastLoopP, hb]
    · simp [bcastLoopP, hb]

/-- Witness for `broadcast_write_failure_behavior` at a concrete input: two
subscribers on channel `X` from distinct addresses, handle 1 failing. -/
theorem broadcast_write_failure_behavior_witness :
    mapGet ((broadcastToChannelRun (BEnv.mk (fun r => r == 1)) id
      (subscribeClientRun envNone
        (subscribeClientRun envNone emptyRegistry "X" 1 "i1" "a").1 "X" 2 "i2" "b").1
      "X" (Message.mk "m" none "")).1).channels "X" = some [2] :=
  (broadcast_write_failure_behavior (BEnv.mk (fun r => r == 1)) bEnvOk id id
    (subscribeClientRun envNone
      (subscribeClientRun envNone emptyRegistry "X" 1 "i1" "a").1 "X" 2 "i2" "b").1
    "X" (Message.mk "m" none "") (Message.mk "m" none "") 1 2
    (ClientInfo.mk "i2" "X" "b")
    (by decide) (by decide) (by decide) (by decide) (by decide)).2.1

/-- C2 counterexample: with subscribers 1 (address `a`) and 2 (address `b`)
on channel `X`, a broadcast in which handle 1's write fails removes
subscriber 1 from the channel set and the metadata map, yet its entry is
still present in the AddressBinding index for `a` afterwards — S1 is NOT
removed from all three indexes as the claim states. -/
theorem write_failure_leaves_address_binding :
    (let s2 := (subscribeClientRun envNone
        (subscribeClientRun envNone emptyRegistry "X" 1 "i1" "a").1 "X" 2 "i2" "b").1
     let sB := (broadcastToChannelRun (BEnv.mk (fun r => r == 1)) id s2 "X"
        (Message.mk "m" none "")).1
     mapGet sB.clientMap 1 = none ∧ mapGet sB.channels "X" = some [2] ∧
       mapGet sB.ipConnections "a" = some [ConnInfo.mk 1 "X"]) := by decide

/-- C3: if source address `A` has exactly one active subscriber (handle
`r1`, recorded both in the metadata map and in the AddressBinding for `A`),
then subscribing a new handle `r2` from `A` calls `destroy()` on `r1` (for
any behaviour of the close call — a close failure is swallowed), removes
`r1` from its channel's set, from the metadata map and from the
AddressBinding, and leaves exactly one active subscriber for `A`: the new
one. -/
theorem subscribe_evicts_same_address :
    ∀ (env : SEnv) (s : RegistryState) (A : String) (r1 : Res) (info1 : ClientInfo)
      (c2 : String) (r2 : Res) (id2 : String),
      mapGet s.ipConnections A = some [ConnInfo.mk r1 info1.channel] →
      mapGet s.clientMap r1 = some info1 →
      info1.ip = A →
      (∀ p ∈ s.clientMap, p.2.ip = A → p.1 = r1) →
      r2 ≠ r1 →
      env.destroyed r1 = false →
      (subscribeClientRun env s c2 r2 id2 A).2 = [r1] ∧
      mapGet (subscribeClientRun env s c2 r2 id2 A).1.clientMap r1 = none ∧
      r1 ∉ (mapGet (subscribeClientRun env s c2 r2 id2 A).1.channels info1.channel).getD [] ∧
      mapGet (subscribeClientRun env s c2 r2 id2 A).1.ipConnections A =
        some [ConnInfo.mk r2 c2] ∧
      mapGet (subscribeClientRun env s c2 r2 id2 A).1.clientMap r2 =
        some (ClientInfo.mk id2 c2 A) ∧
      (∀ r info, mapGet (subscribeClientRun env s c2 r2 id2 A).1.clientMap r = some info →
        info.ip = A → r = r2) := by
  intro env s A r1 info1 c2 r2 id2 ha hcm1 hip h4 hne hd
  have hep : evictPhase env s A =
      (RegistryState.mk (chanDel s.channels info1.channel r1)
        (mapDelete s.clientMap r1) (mapDelete s.ipConnections A), [r1]) := by
    rw [evictPhase]
    simp only [mapHas_of_get ha, if_true, ha, Option.getD_some, evictLoopP, hd, if_false,
      Bool.false_eq_true, List.nil_append]
  have hMcm : (evictPhase env s A).1.clientMap = mapDelete s.clientMap r1 := by rw [hep]
  have hMch : (evictPhase env s A).1.channels = chanDel s.channels info1.channel r1 := by
    rw [hep]
  have hMip : (evictPhase env s A).1.ipConnections = mapDelete s.ipConnections A := by
    rw [hep]
  have hkey : r1 ∉ (mapGet (chanDel s.channels info1.channel r1) info1.channel).getD [] := by
    rw [chanDel_get, if_pos rfl]
    cases hg : mapGet s.channels info1.channel with
    | none => simp
    | some set0 =>
      simp only [Option.map_some', Option.getD_some]
      intro hmem
      exact (mem_setDelete.mp hmem).2 rfl
  rw [subscribeClientRun_eq]
  refine ⟨?_, ?_, ?_, ?_, ?_, ?_⟩
  · rw [hep]
  · rw [insertPhase_clientMap_ne _ _ _ _ _ _ (Ne.symm hne), hMcm]
    exact mapGet_delete_self _ _
  · by_cases hcc : info1.channel = c2
    · rw [hcc, insertPhase_channels_self]
      intro hmem
      simp only [Option.getD_some] at hmem
      rcases mem_setAdd.mp hmem with hm | hm
      · have hkey2 := hkey
        rw [hcc] at hkey2
        rw [hMch, hcc] at hm
        exact hkey2 hm
      · exact hne hm.symm
    · rw [insertPhase_channels_ne _ _ _ _ _ _ hcc, hMch]
      exact hkey
  · rw [insertPhase_ipc_self, hMip, mapGet_delete_self]
    rfl
  · exact insertPhase_clientMap_self _ _ _ _ _
  · intro r info hminfo hip2
    by_cases hr : r = r2
    · exact hr
    · rw [insertPhase_clientMap_ne _ _ _ _ _ _ hr, hMcm] at hminfo
      by_cases hr1 : r = r1
      · subst hr1
        rw [mapGet_delete_self] at hminfo
        cases hminfo
      · rw [mapGet_delete_ne _ _ _ hr1] at hminfo
        exact absurd (h4 (r, info) (mapGet_mem hminfo) hip2) hr1

/-- Witness for `subscribe_evicts_same_address` at a concrete input: the
registry with a single subscriber (handle 1, channel `X`, address `a`), on
which handle 2 subscribes to channel `Y` from the same address `a`; the
destroy-call log is exactly `[1]`. -/
theorem subscribe_evicts_same_address_witness :
    (subscribeClientRun envNone
      (subscribeClientRun envNone emptyRegistry "X" 1 "c-1" "a").1 "Y" 2 "d" "a").2 = [1] :=
  (subscribe_evicts_same_address envNone
    (subscribeClientRun envNone emptyRegistry "X" 1 "c-1" "a").1 "a" 1
    (ClientInfo.mk "c-1" "X" "a") "Y" 2 "d"
    (by decide) (by decide) (by decide) (by decide) (by decide) (by decide)).1

/-- C4 (amended): unsubscribing a connection handle that is not a registered
subscriber is a no-op, PROVIDED the named channel's entry (when present) is
non-empty — which invariant 3 promises but the code does not everywhere
maintain.  In the reachable state where a failed broadcast has left an empty
channel entry, the same call instead deletes that entry (see
`unsubscribe_unknown_handle_changes_state`), so the claim as stated is
false. -/
theorem unsubscribe_noop_on_unknown_handle :
    ∀ (s : RegistryState) (channel : String) (res : Res),
      mapGet s.clientMap res = none →
      (∀ p ∈ s.channels, res ∉ p.2) →
      mapGet s.channels channel ≠ some [] →
      (s.channels.map Prod.fst).Nodup →
      unsubscribeClientRun s channel res = s := by
  intro s channel res hcm hsets hne hnd
  rw [unsubscribeClientRun]
  cases hch : mapGet s.channels channel with
  | none => simp only [unsubscribeClient, hch]
  | some clients =>
    simp only [unsubscribeClient, hch, hcm]
    have hmem : res ∉ clients := hsets (channel, clients) (mapGet_mem hch)
    rw [setDelete_eq_self hmem]
    rw [if_neg (fun h : clients = [] => hne (h ▸ hch))]
    rw [mapDelete_eq_self hcm, mapSet_eq_self hnd hch]

/-- Witness for `unsubscribe_noop_on_unknown_handle` at a concrete input:
unsubscribing the never-subscribed handle 2 from a registry with one
subscriber leaves the state unchanged. -/
theorem unsubscribe_noop_on_unknown_handle_witness :
    unsubscribeClientRun (subscribeClientRun envNone emptyRegistry "X" 1 "c-1" "a").1 "X" 2 =
      (subscribeClientRun envNone emptyRegistry "X" 1 "c-1" "a").1 :=
  unsubscribe_noop_on_unknown_handle _ "X" 2 (by decide) (by decide) (by decide) (by decide)

/-- C4 counterexample: subscribe handle 1 to channel `X`, then broadcast
with every write failing, leaving the reachable state in which channel `X`'s
entry exists with an empty set.  Handle 2 is not a registered subscriber
(not in the metadata map, not in any channel set), yet
`unsubscribeClient("X", 2)` CHANGES the registry state — it deletes the
empty `X` entry — so unsubscribe of an unregistered handle is not always a
no-op. -/
theorem unsubscribe_unknown_handle_changes_state :
    (let s1 := (subscribeClientRun envNone emptyRegistry "X" 1 "c-1" "a").1
     let s2 := (broadcastToChannelRun bEnvFail id s1 "X" (Message.mk "m" none "")).1
     mapGet s2.clientMap 2 = none ∧ (∀ p ∈ s2.channels, (2 : Res) ∉ p.2) ∧
       unsubscribeClientRun s2 "X" 2 ≠ s2) := by decide

/-- C5: for every broadcast, a write is attempted for exactly the channel's
subscriber list; if the message's type is in the transformable set
(`initial_view`, `view_change`) and it carries a truthy `view` payload,
every attempted write carries a copy whose `view` equals the
ContentTransformer applied to the original payload (all other fields
unchanged); for every message of any other type, every attempted write
carries the message verbatim. -/
theorem broadcast_transform_dichotomy :
    ∀ (env : BEnv) (rwUrls : View → View) (s : RegistryState) (channel : String)
      (m : Message),
      ((broadcastToChannelRun env rwUrls s channel m).2.map WriteAttempt.res =
        (mapGet s.channels channel).getD []) ∧
      ((m.type = "initial_view" ∨ m.type = "view_change") → ∀ v, m.view = some v →
        ∀ a ∈ (broadcastToChannelRun env rwUrls s channel m).2,
          a.msg = Message.mk m.type (some (rwUrls v)) m.body) ∧
      ((m.type ≠ "initial_view" ∧ m.type ≠ "view_change") →
        ∀ a ∈ (broadcastToChannelRun env rwUrls s channel m).2, a.msg = m) := by
  intro env rwUrls s channel m
  have hmsg : ∀ a ∈ (broadcastToChannelRun env rwUrls s channel m).2,
      a.msg = processMessage rwUrls m := by
    rw [broadcastToChannelRun_eq]
    cases hch : mapGet s.channels channel with
    | none =>
      intro a ha
      exact absurd ha (by simp)
    | some clients =>
      rw [bcastLoopP_attempts]
      intro a ha
      simp only [List.nil_append, List.mem_map] at ha
      obtain ⟨r, _, rfl⟩ := ha
      rfl
  refine ⟨?_, ?_, ?_⟩
  · rw [broadcastToChannelRun_eq]
    cases hch : mapGet s.channels channel with
    | none => rfl
    | some clients =>
      rw [bcastLoopP_attempts]
      simp only [Option.getD_some, List.nil_append, List.map_map]
      have hcomp : (WriteAttempt.res ∘
          fun r => WriteAttempt.mk r (processMessage rwUrls m) (!env.fails r)) = id := by
        funext r
        rfl
      rw [hcomp, List.map_id]
  · intro ht v hv a ha
    rw [hmsg a ha, processMessage_transformable rwUrls m v ht hv]
  · intro ht a ha
    rw [hmsg a ha, processMessage_other rwUrls m (fun h => h.elim ht.1 ht.2)]

/-- Witness for `broadcast_transform_dichotomy` at a concrete input: the
single attempt of a broadcast of an `initial_view` message with payload
`"p"` through the transformer appending `"!"` carries payload `"p!"`. -/
theorem broadcast_transform_dichotomy_witness :
    (WriteAttempt.mk 1 (Message.mk "initial_view" (some "p!") "b") true).msg =
      Message.mk "initial_view" (some ((fun v => v ++ "!") "p")) "b" :=
  (broadcast_transform_dichotomy bEnvOk (fun v => v ++ "!")
    (subscribeClientRun envNone emptyRegistry "X" 1 "c-1" "a").1 "X"
    (Message.mk "initial_view" (some "p") "b")).2.1 (Or.inl rfl) "p" rfl
    (WriteAttempt.mk 1 (Message.mk "initial_view" (some "p!") "b") true) (by decide)

/-- C7: if channel `X` has exactly one subscriber, then after that
subscriber unsubscribes, `X` is absent from the channel index and from the
`channelStats()` result; a subsequent subscribe to `X` re-creates the
channel entry with exactly the new handle, and `channelStats()` then reports
`X` with subscriber count 1. -/
theorem channel_deleted_and_recreated :
    ∀ (s : RegistryState) (X : String) (r : Res) (toISO : Int → String) (env : SEnv)
      (r2 : Res) (id2 ip2 : String),
      mapGet s.channels X = some [r] →
      mapGet (unsubscribeClientRun s X r).channels X = none ∧
      mapGet (getChannelStats toISO (unsubscribeClientRun s X r)) X = none ∧
      mapGet ((subscribeClientRun env (unsubscribeClientRun s X r) X r2 id2 ip2).1).channels X =
        some [r2] ∧
      (mapGet (getChannelStats toISO
          ((subscribeClientRun env (unsubscribeClientRun s X r) X r2 id2 ip2).1)) X).map
        ChannelStat.clientCount = some 1 := by
  intro s X r toISO env r2 id2 ip2 hch
  have hsd : setDelete [r] r = [] := by simp [setDelete]
  have hun : mapGet (unsubscribeClientRun s X r).channels X = none := by
    rw [unsubscribeClientRun]
    simp only [unsubscribeClient, hch]
    rw [hsd, if_pos rfl]
    exact mapGet_delete_self _ _
  have hresub : mapGet
      ((subscribeClientRun env (unsubscribeClientRun s X r) X r2 id2 ip2).1).channels X =
      some [r2] := by
    rw [subscribeClientRun_eq, insertPhase_channels_self,
      lSub_get_none (evictPhase_lSub env (unsubscribeClientRun s X r) ip2) hun]
    simp [setAdd]
  refine ⟨hun, ?_, hresub, ?_⟩
  · rw [getChannelStats_get, hun]
    rfl
  · rw [getChannelStats_get, hresub]
    simp [mkStat]

/-- Witness for `channel_deleted_and_recreated` at a concrete input: channel
`X` disappears from the channel index once its only subscriber leaves. -/
theorem channel_deleted_and_recreated_witness :
    mapGet (unsubscribeClientRun (subscribeClientRun envNone emptyRegistry "X" 1 "c-1" "a").1
      "X" 1).channels "X" = none :=
  (channel_deleted_and_recreated (subscribeClientRun envNone emptyRegistry "X" 1 "c-1" "a").1
    "X" 1 (fun _ => "") envNone 2 "d" "b" (by decide)).1

/-- C8: in every subscriber view built by `getConnectedClients`
(`extractClientInfo`) or by `getChannelStats` (`statClientInfo`), the
`connectedAt` fields are derived by parsing the trailing `-`-delimited
segment of `clientId` with JS `parseInt`: when that segment parses as a
positive number `n`, the view carries the timestamp `n` (and its ISO
rendering); when it does not so parse (no number, or a non-positive one),
both fields are null — and the view is still produced, no error arises. -/
theorem connectedAt_parse_best_effort :
    ∀ (toISO : Int → String) (info : ClientInfo),
      (∀ n : Int, parseIntJS (lastSegment info.clientId) = some n → 0 < n →
        (extractClientInfo toISO info).connectedAtTimestamp = some n ∧
        (extractClientInfo toISO info).connectedAt = some (toISO n) ∧
        (statClientInfo toISO info).connectedAtTimestamp = some n ∧
        (statClientInfo toISO info).connectedAt = some (toISO n)) ∧
      ((∀ n : Int, parseIntJS (lastSegment info.clientId) = some n → n ≤ 0) →
        (extractClientInfo toISO info).connectedAtTimestamp = none ∧
        (extractClientInfo toISO info).connectedAt = none ∧
        (statClientInfo toISO info).connectedAtTimestamp = none ∧
        (statClientInfo toISO info).connectedAt = none) := by
  intro toISO info
  constructor
  · intro n hn hpos
    have ht : jsTimestampOf info.clientId = some n := by
      simp only [jsTimestampOf, hn]
      rw [if_pos hpos]
    simp [extractClientInfo, statClientInfo, ht]
  · intro hall
    have ht : jsTimestampOf info.clientId = none := by
      cases hp : parseIntJS (lastSegment info.clientId) with
      | none => simp [jsTimestampOf, hp]
      | some parsed =>
        simp only [jsTimestampOf, hp]
        rw [if_neg (fun hgt => absurd (hall parsed hp) (not_le.mpr hgt))]
    simp [extractClientInfo, statClientInfo, ht]

/-- Witness for `connectedAt_parse_best_effort` at a concrete input: a
clientId whose trailing segment `abc` does not parse yields a null
`connectedAt` field. -/
theorem connectedAt_parse_best_effort_witness :
    (extractClientInfo (fun _ => "t") (ClientInfo.mk "ip-abc" "X" "a")).connectedAt = none := by
  have hnone : parseIntJS (lastSegment (ClientInfo.mk "ip-abc" "X" "a").clientId) = none := by
    decide
  exact ((connectedAt_parse_best_effort (fun _ => "t") (ClientInfo.mk "ip-abc" "X" "a")).2
    (fun n h => by rw [hnone] at h; cases h)).2.1

/-- C9: broadcast never mutates the caller's message object.  In the object
heap model of the message-processing step, the caller's reference still
holds the original message afterwards, every pre-existing reference is
unchanged, the reference actually broadcast holds `processMessage` of the
original, and for a transformable message with a payload the broadcast
reference is a FRESH object, distinct from the caller's. -/
theorem broadcast_preserves_caller_message :
    ∀ (rwUrls : View → View) (h : MsgHeap) (ref : Nat) (message : Message),
      mapGet h ref = some message →
      mapGet (processMessageAlloc rwUrls h ref).1 ref = some message ∧
      (∀ r v, mapGet h r = some v → mapGet (processMessageAlloc rwUrls h ref).1 r = some v) ∧
      mapGet (processMessageAlloc rwUrls h ref).1 (processMessageAlloc rwUrls h ref).2 =
        some (processMessage rwUrls message) ∧
      ((message.type = "initial_view" ∨ message.type = "view_change") →
        ∀ v, message.view = some v → (processMessageAlloc rwUrls h ref).2 ≠ ref) := by
  intro rwUrls h ref message hg
  by_cases ht : message.type = "initial_view" ∨ message.type = "view_change"
  · cases hv : message.view with
    | some v =>
      have halloc : processMessageAlloc rwUrls h ref =
          (h ++ [(freshRef h, Message.mk message.type (some (rwUrls v)) message.body)],
            freshRef h) := by
        simp only [processMessageAlloc, hg]
        rw [if_pos ht]
        simp only [hv]
      rw [halloc]
      refine ⟨mapGet_append_left _ hg, fun r v2 hg2 => mapGet_append_left _ hg2, ?_, ?_⟩
      · rw [processMessage_transformable rwUrls message v ht hv]
        exact mapGet_append_fresh _ (freshRef_get_none h)
      · intro _ v2 _
        exact freshRef_ne hg
    | none =>
      have halloc : processMessageAlloc rwUrls h ref = (h, ref) := by
        simp only [processMessageAlloc, hg]
        rw [if_pos ht]
        simp only [hv]
      rw [halloc]
      refine ⟨hg, fun r v2 hg2 => hg2, ?_, ?_⟩
      · rw [processMessage_noview rwUrls message hv]
        exact hg
      · intro _ v2 hv2
        cases hv2
  · have halloc : processMessageAlloc rwUrls h ref = (h, ref) := by
      simp only [processMessageAlloc, hg]
      rw [if_neg ht]
    rw [halloc]
    refine ⟨hg, fun r v2 hg2 => hg2, ?_, ?_⟩
    · rw [processMessage_other rwUrls message ht]
      exact hg
    · intro ht2 v2 hv2
      exact absurd ht2 ht

/-- Witness for `broadcast_preserves_caller_message` at a concrete input:
after processing a transformable message stored at reference 0, reference 0
still holds the original message. -/
theorem broadcast_preserves_caller_message_witness :
    mapGet (processMessageAlloc id [(0, Message.mk "initial_view" (some "p") "b")] 0).1 0 =
      some (Message.mk "initial_view" (some "p") "b") :=
  (broadcast_preserves_caller_message id [(0, Message.mk "initial_view" (some "p") "b")] 0
    (Message.mk "initial_view" (some "p") "b") (by decide)).1

/-- C10: a message of type `initial_view` or `view_change` that lacks a
truthy `view` payload is delivered verbatim to every subscriber of the
channel, and the ContentTransformer is not invoked: the whole broadcast
result is the same for every transformer. -/
theorem transformable_without_view_verbatim :
    ∀ (env : BEnv) (rwUrls rwUrls2 : View → View) (s : RegistryState) (channel : String)
      (m : Message),
      (m.type = "initial_view" ∨ m.type = "view_change") → m.view = none →
      (∀ a ∈ (broadcastToChannelRun env rwUrls s channel m).2, a.msg = m) ∧
      broadcastToChannelRun env rwUrls s channel m =
        broadcastToChannelRun env rwUrls2 s channel m := by
  intro env rwUrls rwUrls2 s channel m ht hv
  constructor
  · rw [broadcastToChannelRun_eq]
    cases hch : mapGet s.channels channel with
    | none =>
      intro a ha
      exact absurd ha (by simp)
    | some clients =>
      rw [bcastLoopP_attempts]
      intro a ha
      simp only [List.nil_append, List.mem_map] at ha
      obtain ⟨r, _, rfl⟩ := ha
      exact processMessage_noview rwUrls m hv
  · rw [broadcastToChannelRun_eq, broadcastToChannelRun_eq,
      processMessage_noview rwUrls m hv, processMessage_noview rwUrls2 m hv]

/-- Witness for `transformable_without_view_verbatim` at a concrete input: a
`view_change` message without a payload broadcasts identically under two
different transformers. -/
theorem transformable_without_view_verbatim_witness :
    broadcastToChannelRun bEnvOk (fun v => v ++ "!")
      (subscribeClientRun envNone emptyRegistry "X" 1 "c-1" "a").1 "X"
      (Message.mk "view_change" none "b") =
    broadcastToChannelRun bEnvOk id
      (subscribeClientRun envNone emptyRegistry "X" 1 "c-1" "a").1 "X"
      (Message.mk "view_change" none "b") :=
  (transformable_without_view_verbatim bEnvOk (fun v => v ++ "!") id
    (subscribeClientRun envNone emptyRegistry "X" 1 "c-1" "a").1 "X"
    (Message.mk "view_change" none "b") (Or.inr rfl) rfl).2
